import Mathlib

/-!
Verification of the qdmr configuration core against its design document.

Embedded sources:
* `src/lib/channel.hh`   — the channel data model (enums, fields, setter API);
* `src/lib/csvwriter.cc` — the plain-text exporter `CSVWriter::write`;
* `src/lib/uv390_callsigndb.hh` — the UV390 callsign-database codec
  (layout constants, record/index/entry types, `encode` signature).

Entities whose class definitions are not among the provided sources
(Config, Zone, ScanList, GPSSystem, the contact classes, RXGroupList, the
user database, and the body of the codec) are modelled from the
specification; every such definition carries a doc comment starting with
"Modelled from the spec:".  Frequencies (C++ `double`/`float`) are
modelled as exact rationals.
-/

namespace Qdmr

/-- Power settings of a channel, `Channel::Power` (channel.hh:32-38):
MaxPower, HighPower, MidPower, LowPower, MinPower. -/
inductive Power
  | MaxPower
  | HighPower
  | MidPower
  | LowPower
  | MinPower
  deriving DecidableEq

/-- Admit criteria of an analog channel, `AnalogChannel::Admit` (channel.hh:147-151). -/
inductive AnalogAdmit
  | AdmitNone
  | AdmitFree
  | AdmitTone
  deriving DecidableEq

/-- Admit criteria of a digital channel, `DigitalChannel::Admit` (channel.hh:247-251). -/
inductive DigitalAdmit
  | AdmitNone
  | AdmitFree
  | AdmitColorCode
  deriving DecidableEq

/-- Time slots of a digital channel, `DigitalChannel::TimeSlot` (channel.hh:254-257). -/
inductive TimeSlot
  | TimeSlot1
  | TimeSlot2
  deriving DecidableEq

/-- Bandwidth of an analog channel, `AnalogChannel::Bandwidth` (channel.hh:154-157). -/
inductive Bandwidth
  | BWNarrow
  | BWWide
  deriving DecidableEq

/-- Modelled from the spec: a scan list's designated transmit channel is a
reference to a channel, or one of the distinguished cases "currently
selected" and "last" (spec section 3 "ScanList"; the exporter's own column
legend reads "Last, Sel or index", csvwriter.cc:172).  The ScanList class
itself is not among the provided sources. -/
inductive TxRef
  | selected
  | last
  | channel (c : Nat)
  deriving DecidableEq

/-- Modelled from the spec: digital contact call types group/private/all-call
(spec section 3 "Contact"); the contact classes are not among the provided
sources, the names follow their uses in csvwriter.cc:229-231. -/
inductive ContactType
  | GroupCall
  | PrivateCall
  | AllCall
  deriving DecidableEq

/-- Common state of every channel, class `Channel` (channel.hh:26,117-131):
name, RX/TX frequency in MHz, power, TX timeout in seconds, RX-only flag
and the default scan list.  C++ holds entities behind pointers; a reference
is modelled by the referenced entity's identity `eid`, with `none` for a
null pointer.  `eid` models the object identity (its address) of this
channel itself. -/
structure ChannelBase where
  eid : Nat
  name : String
  rxFreq : ℚ
  txFreq : ℚ
  power : Power
  txTimeout : Nat
  rxOnly : Bool
  scanList : Option Nat
  deriving DecidableEq

/-- State of a digital channel, class `DigitalChannel` (channel.hh:241,340-356). -/
structure DigitalChannel where
  base : ChannelBase
  admitCrit : DigitalAdmit
  colorCode : Nat
  timeSlot : TimeSlot
  rxGroupList : Option Nat
  txContact : Option Nat
  gpsSystem : Option Nat
  roaming : Option Nat
  radioId : Option Nat
  deriving DecidableEq

/-- State of an analog channel, class `AnalogChannel` (channel.hh:141,219-231). -/
structure AnalogChannel where
  base : ChannelBase
  admitCrit : AnalogAdmit
  squelch : Nat
  rxTone : Nat
  txTone : Nat
  bw : Bandwidth
  aprsSystem : Option Nat
  deriving DecidableEq

/-- A channel is either digital or analog; the C++ class hierarchy with its
runtime `is<>/as<>` downcasts (channel.hh:57-74) is modelled as a closed
tagged variant, as the spec's design note 9 prescribes. -/
inductive Channel
  | digital (c : DigitalChannel)
  | analog (c : AnalogChannel)
  deriving DecidableEq

/-- Identity of a channel (the C++ object address). -/
def Channel.eid : Channel → Nat
  | .digital c => c.base.eid
  | .analog c => c.base.eid

/-- Modelled from the spec: a digital contact with call type, numeric call
ID and receive-tone flag (spec section 3 "Contact"); class not among the
provided sources. -/
structure DigitalContact where
  eid : Nat
  name : String
  type : ContactType
  number : Nat
  rxTone : Bool
  deriving DecidableEq

/-- Modelled from the spec: a DTMF contact with a digit-string ID and
receive-tone flag (spec section 3 "Contact"). -/
structure DTMFContact where
  eid : Nat
  name : String
  number : String
  rxTone : Bool
  deriving DecidableEq

/-- Modelled from the spec: the closed contact variant {digital, DTMF}
(spec section 3 and design note 9). -/
inductive Contact
  | digital (c : DigitalContact)
  | dtmf (c : DTMFContact)
  deriving DecidableEq

/-- Identity of a contact. -/
def Contact.eid : Contact → Nat
  | .digital c => c.eid
  | .dtmf c => c.eid

/-- Name of a contact. -/
def Contact.cname : Contact → String
  | .digital c => c.name
  | .dtmf c => c.name

/-- Modelled from the spec: a zone has a name and two channel lists, side A
and side B (used as `zone->name()`, `zone->A()`, `zone->B()` in
csvwriter.cc:142-164; the Zone class is not among the provided sources).
Members are channel references. -/
structure Zone where
  name : String
  A : List Nat
  B : List Nat
  deriving DecidableEq

/-- Modelled from the spec: a scan list with ordered member channels, two
optional priority channels and a designated transmit channel reference
(spec section 3 "ScanList"; used as `list->name()`, `list->priorityChannel()`,
`list->secPriorityChannel()`, `list->channel(j)` in csvwriter.cc:176-192). -/
structure ScanList where
  eid : Nat
  name : String
  priorityChannel : Option Nat
  secPriorityChannel : Option Nat
  txChannel : TxRef
  channels : List Nat
  deriving DecidableEq

/-- Modelled from the spec: a GPS/positioning system with destination
contact, update period and optional revert channel (spec section 3; used in
csvwriter.cc:203-212). -/
structure GPSSystem where
  eid : Nat
  name : String
  contact : Nat
  period : Nat
  revertChannel : Option Nat
  deriving DecidableEq

/-- Modelled from the spec: an RX group list, an ordered set of digital
contact references (spec section 3; used in csvwriter.cc:253-262). -/
structure RXGroupList where
  eid : Nat
  name : String
  contacts : List Nat
  deriving DecidableEq

/-- Modelled from the spec: the configuration graph read by the exporter —
radio ID/name, intro lines, mic level, speech flag and the ordered entity
lists (accessors `config->id()`, `config->name()`, `config->introLine1/2()`,
`config->micLevel()`, `config->speech()`, `config->channelList()`,
`config->zones()`, `config->scanlists()`, `config->gpsSystems()`,
`config->contacts()`, `config->rxGroupLists()` in csvwriter.cc; the Config
class is not among the provided sources). -/
structure Config where
  id : Nat
  name : String
  introLine1 : String
  introLine2 : String
  micLevel : Nat
  speech : Bool
  channelList : List Channel
  zones : List Zone
  scanlists : List ScanList
  gpsSystems : List GPSSystem
  contacts : List Contact
  rxGroupLists : List RXGroupList
  deriving DecidableEq

/-- Modelled from the spec: the build-time version constant `VERSION_STRING`
from the generated header config.h (not among the provided sources); its
value is immaterial to every claim, any fixed constant is faithful. -/
def VERSION_STRING : String := "0.1.0"

/-- Qt `qSetFieldWidth(w) << left << s`: the textual item is padded on the
right with spaces up to width `w` (csvwriter.cc uses this on every column);
longer items are not cut. -/
def padTo (w : Nat) (s : String) : String :=
  s ++ String.mk (List.replicate (w - s.length) ' ')

/-- A name surrounded by double quotes, as emitted for every Name column. -/
def quoted (s : String) : String := "\"" ++ s ++ "\""

/-- The four zero-padded decimal digits of `n` (used for the fractional part
of a fixed-precision frequency, `n < 10000` at every use). -/
def pad4 (n : Nat) : String :=
  String.mk [Nat.digitChar (n / 1000 % 10), Nat.digitChar (n / 100 % 10),
             Nat.digitChar (n / 10 % 10), Nat.digitChar (n % 10)]

/-- Decimal rendering of `val / 10000` with exactly four fractional digits:
the model of `QString::number(double(val)/10000, 'f', 4)` in
`formatFrequency` (csvwriter.cc:10). -/
def formatFixed4 (val : Int) : String :=
  (if val < 0 then "-" else "")
    ++ Nat.repr (val.natAbs / 10000) ++ "." ++ pad4 (val.natAbs % 10000)

/-- Floor of a rational as an integer (numerator by denominator, floor
division). -/
def qfloor (q : ℚ) : Int := Int.fdiv q.num (q.den : Int)

/-- C `std::round`: round half away from zero (csvwriter.cc:9). -/
def cRound (q : ℚ) : Int :=
  if q < 0 then -(qfloor (-q + 1/2)) else qfloor (q + 1/2)

/-- `formatFrequency` (csvwriter.cc:8-11): scale by 10000, round to an
integer, render with four fractional digits. -/
def formatFrequency (f : ℚ) : String :=
  formatFixed4 (cRound (f * 10000))

/-- The Power column: `(Channel::HighPower == power()) ? "High" : "Low"`
(csvwriter.cc:62 and csvwriter.cc:115). -/
def powerCol (p : Power) : String :=
  if Power.HighPower = p then "High" else "Low"

/-- The Transmit column of a channel row: the signed offset when the TX
frequency is below the RX frequency, the absolute TX frequency otherwise
(csvwriter.cc:58-61 and csvwriter.cc:111-114). -/
def txFreqField (b : ChannelBase) : String :=
  if b.txFreq < b.rxFreq then formatFrequency (b.txFreq - b.rxFreq)
  else formatFrequency b.txFreq

/-- `List::indexOf` resolved over entity identities: the position of the
entity with identity `x`, or -1 when absent, exactly as Qt's
`indexOf` returns -1 on a missing element. -/
def indexOfBy {α : Type} (f : α → Nat) (l : List α) (x : Nat) : Int :=
  match l.findIdx? (fun a => f a == x) with
  | some k => (k : Int)
  | none => -1

/-- A cross-reference column for an optional reference: `-` for a null
pointer, else the 1-based position `indexOf(...)+1` (pattern of
csvwriter.cc:63-64, 70-81, 116-117, 181-185, 210). -/
def optRef {α : Type} (f : α → Nat) (l : List α) (r : Option Nat) : String :=
  match r with
  | none => "-"
  | some x => toString (indexOfBy f l x + 1)

/-- Dereference of a contact pointer's name, `digi->txContact()->name()`
(csvwriter.cc:83); graph invariant (i) makes the referenced entity present,
an absent id yields the empty string. -/
def contactNameOf (l : List Contact) (x : Nat) : String :=
  match l.find? (fun c => c.eid == x) with
  | some c => c.cname
  | none => ""

/-- The TOT column `(0 == txTimeout()) ? '-' : txTimeout()`
(csvwriter.cc:65,118).  In C++ the ternary's operands are `char` and
`uint`, so the usual arithmetic conversions give the expression type
`unsigned int`: when the timeout is 0 the char `-` is converted to its
code point 45 and the stream prints "45". -/
def totField (t : Nat) : String := Nat.repr (if t = 0 then 45 else t)

/-- A CTCSS/DCS tone column: `-` when the code is 0, else the numeric code
(csvwriter.cc:122-129; `Signaling::Code` is an enum streamed as an int). -/
def toneField (t : Nat) : String :=
  if t = 0 then "-" else Nat.repr t

/-- The digital Admit column (csvwriter.cc:67). -/
def digitalAdmitCol : DigitalAdmit → String
  | .AdmitNone => "-"
  | .AdmitFree => "Free"
  | .AdmitColorCode => "Color"

/-- The analog Admit column (csvwriter.cc:120). -/
def analogAdmitCol : AnalogAdmit → String
  | .AdmitNone => "-"
  | .AdmitFree => "Free"
  | .AdmitTone => "Tone"

/-- The TS column (csvwriter.cc:69). -/
def timeSlotCol : TimeSlot → String
  | .TimeSlot1 => "1"
  | .TimeSlot2 => "2"

/-- The Width column: `BWWide == bandwidth() ? 25.0 : 12.5` streamed as a
double, which Qt prints as "25" and "12.5" (csvwriter.cc:130). -/
def bwField : Bandwidth → String
  | .BWWide => "25"
  | .BWNarrow => "12.5"

/-- The contact Type column (csvwriter.cc:229-231). -/
def contactTypeCol : ContactType → String
  | .PrivateCall => "Private"
  | .GroupCall => "Group"
  | .AllCall => "All"

/-- The leading comment block of the export (csvwriter.cc:16-20): the only
part of the output that reads the ambient clock
(`QDateTime::currentDateTime().toString()`, passed here as `now`). -/
def mkFileHeader (now : String) : String :=
  "#\n# Configuration generated " ++ now ++ " by qdrm, version "
    ++ VERSION_STRING ++ "\n# see https://dm3mat.darc.de/qdmr for details.\n#\n\n"

/-- The general settings block (csvwriter.cc:23-32). -/
def generalSection (cfg : Config) : String :=
  "# Unique DMR ID and name (quoted) of this radio.\nID: " ++ Nat.repr cfg.id
    ++ "\nName: \"" ++ cfg.name ++ "\"\n\n"
    ++ "# Text displayed when the radio powers up (quoted).\nIntroLine1: \""
    ++ cfg.introLine1 ++ "\"\nIntroLine2: \"" ++ cfg.introLine2 ++ "\"\n\n"
    ++ "# Microphone amplification, value 1..10:\nMICLevel: " ++ Nat.repr cfg.micLevel
    ++ "\n\n# Speech-synthesis (\x27On\x27 or \x27Off\x27):\nSpeech: "
    ++ (if cfg.speech then "On" else "Off") ++ "\n\n"

/-- One digital channel row (csvwriter.cc:55-84); `i` is the channel's
0-based position in the combined channel list. -/
def digitalRow (cfg : Config) (i : Nat) (c : DigitalChannel) : String :=
  padTo 8 (Nat.repr (i + 1))
    ++ padTo 20 (quoted c.base.name)
    ++ padTo 10 (formatFrequency c.base.rxFreq)
    ++ padTo 10 (txFreqField c.base)
    ++ padTo 6 (powerCol c.base.power)
    ++ padTo 5 (optRef ScanList.eid cfg.scanlists c.base.scanList)
    ++ padTo 4 (totField c.base.txTimeout)
    ++ padTo 3 (if c.base.rxOnly then "+" else "-")
    ++ padTo 7 (digitalAdmitCol c.admitCrit)
    ++ padTo 3 (Nat.repr c.colorCode)
    ++ padTo 3 (timeSlotCol c.timeSlot)
    ++ padTo 5 (optRef RXGroupList.eid cfg.rxGroupLists c.rxGroupList)
    ++ padTo 4 (optRef Contact.eid cfg.contacts c.txContact)
    ++ padTo 4 (optRef GPSSystem.eid cfg.gpsSystems c.gpsSystem)
    ++ (match c.txContact with
        | some t => "# " ++ contactNameOf cfg.contacts t
        | none => "")
    ++ "\n"

/-- The digital channel table (csvwriter.cc:34-86): the column legend, one
row per digital channel (analog ones are skipped, keeping their positions),
then a blank line. -/
def digitalSection (cfg : Config) : String :=
  "# Table of digital channels.\n# 1) Channel number: 1-1024\n# 2) Name in quotes. E.g., \"NAME\" \n# 3) Receive frequency in MHz\n# 4) Transmit frequency or +/- offset in MHz\n# 5) Transmit power: High, Low\n# 6) Scan list: - or index in Scanlist table\n# 7) Transmit timeout timer in seconds: 0, 15, 30, 45... 555\n# 8) Receive only: -, +\n# 9) Admit criteria: -, Free, Color\n# 10) Color code: 0, 1, 2, 3... 15\n# 11) Time slot: 1 or 2\n# 12) Receive group list: - or index in Grouplist table\n# 13) Contact for transmit: - or index in Contacts table\n# 14) GPS System: - or index in GPS table.\n#\nDigital Name                Receive   Transmit  Power Scan TOT RO Admit  CC TS RxGL TxC GPS\n"
    ++ String.join (cfg.channelList.enum.filterMap fun p =>
        match p.2 with
        | .digital c => some (digitalRow cfg p.1 c)
        | .analog _ => none)
    ++ "\n"

/-- One analog channel row (csvwriter.cc:108-131). -/
def analogRow (cfg : Config) (i : Nat) (c : AnalogChannel) : String :=
  padTo 8 (Nat.repr (i + 1))
    ++ padTo 20 (quoted c.base.name)
    ++ padTo 10 (formatFrequency c.base.rxFreq)
    ++ padTo 10 (txFreqField c.base)
    ++ padTo 6 (powerCol c.base.power)
    ++ padTo 5 (optRef ScanList.eid cfg.scanlists c.base.scanList)
    ++ padTo 4 (totField c.base.txTimeout)
    ++ padTo 3 (if c.base.rxOnly then "+" else "-")
    ++ padTo 7 (analogAdmitCol c.admitCrit)
    ++ padTo 8 (Nat.repr c.squelch)
    ++ padTo 7 (toneField c.rxTone)
    ++ padTo 7 (toneField c.txTone)
    ++ padTo 5 (bwField c.bw)
    ++ "\n"

/-- The analog channel table (csvwriter.cc:88-133). -/
def analogSection (cfg : Config) : String :=
  "# Table of analog channels.\n# 1) Channel number: 1-1024\n# 2) Name in quotes.\n# 3) Receive frequency in MHz\n# 4) Transmit frequency or +/- offset in MHz\n# 5) Transmit power: High, Low\n# 6) Scan list: - or index\n# 7) Transmit timeout timer in seconds: 0, 15, 30, 45... 555\n# 8) Receive only: -, +\n# 9) Admit criteria: -, Free, Tone\n# 10) Squelch level: 0, 1, 2, 3, 4, 5, 6, 7, 8, 9\n# 11) Guard tone for receive, or \x27-\x27 to disable\n# 12) Guard tone for transmit, or \x27-\x27 to disable\n# 13) Bandwidth in kHz: 12.5, 25\n#\nAnalog  Name                Receive    Transmit Power Scan TOT RO Admit  Squelch RxTone TxTone Width\n"
    ++ String.join (cfg.channelList.enum.filterMap fun p =>
        match p.2 with
        | .digital _ => none
        | .analog c => some (analogRow cfg p.1 c))
    ++ "\n"

/-- One zone row for one VFO side (csvwriter.cc:145-152 for side A,
csvwriter.cc:155-162 for side B): zone number, quoted name, the side
letter, then the side's members as comma-separated 1-based channel
indices. -/
def zoneRowSide (cfg : Config) (i : Nat) (zname : String) (vfo : String)
    (chans : List Nat) : String :=
  padTo 8 (Nat.repr (i + 1))
    ++ padTo 20 (quoted zname)
    ++ padTo 4 vfo
    ++ String.intercalate ","
        (chans.map fun cid => toString (indexOfBy Channel.eid cfg.channelList cid + 1))
    ++ "\n"

/-- The rows a single zone emits (csvwriter.cc:144-163): one row per
non-empty side, side A first. -/
def zoneRows (cfg : Config) (i : Nat) (z : Zone) : List String :=
  (if z.A.length ≠ 0 then [zoneRowSide cfg i z.name "A" z.A] else [])
    ++ (if z.B.length ≠ 0 then [zoneRowSide cfg i z.name "B" z.B] else [])

/-- The zone table (csvwriter.cc:135-165). -/
def zoneSection (cfg : Config) : String :=
  "# Table of channel zones.\n# 1) Zone number\n# 2) Name in quotes. \n# 3) VFO: Either A or B.\n# 4) List of channels: numbers and ranges (N-M) separated by comma\n#\nZone    Name                VFO Channels\n"
    ++ String.join (cfg.zones.enum.map fun p => String.join (zoneRows cfg p.1 p.2))
    ++ "\n"

/-- The designated-transmit-channel column of a scan list row: the source
prints the literal "Sel" (csvwriter.cc:186) without consulting the scan
list's designated transmit channel. -/
def ScanList.txChColumn (_sl : ScanList) : String := "Sel"

/-- One scan list row (csvwriter.cc:178-191). -/
def scanListRow (cfg : Config) (i : Nat) (sl : ScanList) : String :=
  padTo 9 (Nat.repr (i + 1))
    ++ padTo 20 (quoted sl.name)
    ++ padTo 5 (optRef Channel.eid cfg.channelList sl.priorityChannel)
    ++ padTo 5 (optRef Channel.eid cfg.channelList sl.secPriorityChannel)
    ++ padTo 5 sl.txChColumn
    ++ String.intercalate ","
        (sl.channels.map fun cid => toString (indexOfBy Channel.eid cfg.channelList cid + 1))
    ++ "\n"

/-- The scan list table (csvwriter.cc:167-193). -/
def scanListSection (cfg : Config) : String :=
  "# Table of scan lists.\n# 1) Scan list number: 1-250\n# 2) Name in quotes.\n# 3) Priority channel 1 (50% of scans): -, Sel or index\n# 4) Priority channel 2 (25% of scans): -, Sel or index\n# 5) Designated transmit channel: Last, Sel or index\n# 6) List of channels: numbers and ranges (N-M) separated by comma\n#\nScanlist Name               PCh1 PCh2 TxCh Channels\n"
    ++ String.join (cfg.scanlists.enum.map fun p => scanListRow cfg p.1 p.2)
    ++ "\n"

/-- Position of a digital contact among the digital contacts only, the
model of `ContactList::indexOfDigital` (called at csvwriter.cc:207; the
contact list class is not among the provided sources, modelled from the
spec's list/index contract). -/
def indexOfDigitalContact (l : List Contact) (x : Nat) : Int :=
  match (l.filterMap fun c => match c with
          | .digital d => some d.eid
          | .dtmf _ => none).findIdx? (fun i => i == x) with
  | some k => (k : Int)
  | none => -1

/-- One GPS system row (csvwriter.cc:205-211).  The final field width 6 is
still in effect when the newline is streamed, so the newline itself is
padded to six characters: five trailing spaces follow it. -/
def gpsRow (cfg : Config) (i : Nat) (g : GPSSystem) : String :=
  padTo 5 (Nat.repr (i + 1))
    ++ padTo 20 (quoted g.name)
    ++ padTo 5 (toString (indexOfDigitalContact cfg.contacts g.contact + 1))
    ++ padTo 7 (Nat.repr g.period)
    ++ padTo 6 (match g.revertChannel with
        | some c => toString (indexOfBy Channel.eid cfg.channelList c + 1)
        | none => "-")
    ++ padTo 6 "\n"

/-- The GPS table (csvwriter.cc:195-213). -/
def gpsSection (cfg : Config) : String :=
  "# Table of GPS systems.\n# 1) GPS system ID\n# 2) Name in quotes.\n# 3) Destination contact ID.\n# 4) Update period: period in ms\n# 5) Revert channel ID or \x27-\x27.\n#\nGPS  Name                Dest Period Revert\n"
    ++ String.join (cfg.gpsSystems.enum.map fun p => gpsRow cfg p.1 p.2)
    ++ "\n"

/-- One contact row (csvwriter.cc:224-243): digital contacts print type and
numeric ID, DTMF contacts print "DTMF" and the quoted digit string (with a
narrower name column, width 17). -/
def contactRow (i : Nat) (c : Contact) : String :=
  match c with
  | .digital d =>
      padTo 8 (Nat.repr (i + 1))
        ++ padTo 20 (quoted d.name)
        ++ padTo 8 (contactTypeCol d.type)
        ++ padTo 12 (Nat.repr d.number)
        ++ padTo 6 (if d.rxTone then "+" else "-")
        ++ "\n"
  | .dtmf t =>
      padTo 8 (Nat.repr (i + 1))
        ++ padTo 17 (quoted t.name)
        ++ padTo 8 "DTMF"
        ++ padTo 12 (quoted t.number)
        ++ padTo 6 (if t.rxTone then "+" else "-")
        ++ "\n"

/-- The contact table (csvwriter.cc:215-245). -/
def contactSection (cfg : Config) : String :=
  "# Table of contacts.\n# 1) Contact number: 1-256\n# 2) Name in quotes.\n# 3) Call type: Group, Private, All or DTMF\n# 4) Call ID: 1...16777215 or string with DTMF number\n# 5) Call receive tone: -, +\n#\nContact Name                Type    ID          RxTone\n"
    ++ String.join (cfg.contacts.enum.map fun p => contactRow p.1 p.2)
    ++ "\n"

/-- One group list row (csvwriter.cc:255-261). -/
def groupListRow (cfg : Config) (i : Nat) (gl : RXGroupList) : String :=
  padTo 10 (Nat.repr (i + 1))
    ++ padTo 20 (quoted gl.name)
    ++ String.intercalate ","
        (gl.contacts.map fun cid => toString (indexOfBy Contact.eid cfg.contacts cid + 1))
    ++ "\n"

/-- The group list table (csvwriter.cc:247-263). -/
def groupListSection (cfg : Config) : String :=
  "# Table of group lists.\n# 1) Group list number: 1-64\n# 2) Name in quotes.\n# 3) List of contacts: numbers and ranges (N-M) separated by comma\n#\nGrouplist Name                Contacts\n"
    ++ String.join (cfg.rxGroupLists.enum.map fun p => groupListRow cfg p.1 p.2)
    ++ "\n"

/-- Everything `CSVWriter::write` streams after the leading comment block
(csvwriter.cc:23-263): a pure function of the configuration graph alone. -/
def writeBody (cfg : Config) : String :=
  generalSection cfg ++ digitalSection cfg ++ analogSection cfg
    ++ zoneSection cfg ++ scanListSection cfg ++ gpsSection cfg
    ++ contactSection cfg ++ groupListSection cfg

/-- `CSVWriter::write` (csvwriter.cc:13-266).  The C++ signature takes the
graph through a `const Config *` and a stream; the model returns the
streamed text together with the configuration after the call (the function
performs no mutation, every statement only reads `config`).  `now` is the
ambient clock string `QDateTime::currentDateTime().toString()` read at
csvwriter.cc:17.  The C++ function ends with `return true`. -/
def CSVWriter.write (cfg : Config) (now : String) : String × Config :=
  (mkFileHeader now ++ writeBody cfg, cfg)

/-- Name update of a channel, common part of both variants. -/
def Channel.withName : Channel → String → Channel
  | .digital c, nm => .digital { c with base := { c.base with name := nm } }
  | .analog c, nm => .analog { c with base := { c.base with name := nm } }

/-- RX-frequency update of a channel, common part of both variants. -/
def Channel.withRXFrequency : Channel → ℚ → Channel
  | .digital c, f => .digital { c with base := { c.base with rxFreq := f } }
  | .analog c, f => .analog { c with base := { c.base with rxFreq := f } }

/-- Modelled from the spec: `Channel::setName` (declared channel.hh:79, body
not among the provided sources): an empty name is a validation error — the
setter reports failure and leaves the channel unchanged; otherwise it
updates the name only and reports success (spec section 7). -/
def Channel.setName (c : Channel) (nm : String) : Bool × Channel :=
  if nm = "" then (false, c) else (true, c.withName nm)

/-- Modelled from the spec: `Channel::setRXFrequency` (declared
channel.hh:84): a frequency ≤ 0 is a validation error, rejected with the
channel unchanged (spec section 7). -/
def Channel.setRXFrequency (c : Channel) (f : ℚ) : Bool × Channel :=
  if f ≤ 0 then (false, c) else (true, c.withRXFrequency f)

/-- Modelled from the spec: `DigitalChannel::setColorCode` (declared
channel.hh:293): a color code outside 0-15 is rejected with the channel
unchanged, an in-range one is stored (spec sections 3 and 7). -/
def DigitalChannel.setColorCode (c : DigitalChannel) (cc : Nat) : Bool × DigitalChannel :=
  if cc ≤ 15 then (true, { c with colorCode := cc }) else (false, c)

/-- Modelled from the spec: `AnalogChannel::setSquelch` (declared
channel.hh:191): a squelch level outside 0-10 is rejected with the channel
unchanged, an in-range one is stored (spec sections 3 and 7). -/
def AnalogChannel.setSquelch (c : AnalogChannel) (sq : Nat) : Bool × AnalogChannel :=
  if sq ≤ 10 then (true, { c with squelch := sq }) else (false, c)

/-- Modelled from the spec: a record of the source user database
(`UserDatabase::User`, not among the provided sources): DMR ID, callsign
and descriptive name (spec section 3 "UserRecord"). -/
structure User where
  id : Nat
  call : String
  uname : String
  deriving DecidableEq

/-- A fixed-width null-terminated ASCII field of `w` bytes: the first `w-1`
bytes of the source are kept and the remainder is cleared, so the field is
always null-terminated (spec section 4.4 "lossy, deterministic: keep the
first N bytes, always null-terminate"). -/
def fitField (w : Nat) (s : List Nat) : List Nat :=
  let t := s.take (w - 1)
  t ++ List.replicate (w - t.length) 0

/-- A record of the encoded callsign database,
`callsign_db_t::callsign_t` (uv390_callsigndb.hh:55-59): a 24-bit DMR id, a
16-byte callsign field and a 100-byte name field. -/
structure callsign_t where
  dmrid : Nat
  callsign : List Nat
  name : List Nat
  deriving DecidableEq

/-- Modelled from the spec: `callsign_t::fromUser` (declared
uv390_callsigndb.hh:76, body not among the provided sources): the id is
packed into the 24-bit field, callsign and name are truncated to their
field widths and null-terminated (spec section 4.4). -/
def callsign_t.fromUser (u : User) : callsign_t :=
  { dmrid := u.id % 16777216
    callsign := fitField 16 (u.call.data.map Char.toNat)
    name := fitField 100 (u.uname.data.map Char.toNat) }

/-- Modelled from the spec: the selection stage rejects records with ID 0
and ids outside the 24-bit domain (spec sections 3 "UserRecord" and 4.4
"Selection"). -/
def validUser (u : User) : Bool :=
  decide (0 < u.id ∧ u.id < 16777216)

/-- Insertion into a strictly-ascending id-ordered record list; a record
whose id is already present is dropped (spec section 4.4: the codec
receives a de-duplicated set, duplicate ids are rejected by the selection
stage). -/
def insertU (u : User) : List User → List User
  | [] => [u]
  | v :: vs =>
      if u.id < v.id then u :: v :: vs
      else if u.id = v.id then v :: vs
      else v :: insertU u vs

/-- Modelled from the spec: sorting of the selected records ascending by ID
with duplicate ids dropped (spec section 4.4 "Ordering"). -/
def sortUnique : List User → List User
  | [] => []
  | u :: us => insertU u (sortUnique us)

/-- The hard record capacity of the UV390 image: 122197 entries
(uv390_callsigndb.hh:14 and the `db` array bound, uv390_callsigndb.hh:81). -/
def CAP : Nat := 122197

/-- The number of index slots: 4096 (`index` array bound,
uv390_callsigndb.hh:80). -/
def IDX : Nat := 4096

/-- Modelled from the spec: the encoded record table — validated records,
sorted ascending by ID with duplicates dropped, cut to the capacity
(spec section 4.4 "Selection"/"Ordering"; `db` field,
uv390_callsigndb.hh:81). -/
def encodeTable (users : List User) : List callsign_t :=
  ((sortUnique (users.filter validUser)).map callsign_t.fromUser).take CAP

/-- An index entry, `callsign_db_t::entry_t` (uv390_callsigndb.hh:35-47):
a record-table index paired with the sampled record's ID (packed into one
32-bit value in the binary layout; the exact bit split is device-specific
and left open by the spec, the model keeps the pair). -/
structure entry_t where
  index : Nat
  sampledId : Nat
  deriving DecidableEq

/-- The sampling stride of the sparse index: with `n` records, sampling
every `n / IDX + 1`-th record fills at most `IDX` slots and covers the
whole table (spec section 4.4 "Sparse index table": regular stride,
monotone in both fields). -/
def strideOf (n : Nat) : Nat := n / IDX + 1

/-- Modelled from the spec: the sparse index table — `IDX` slots sampling
the sorted record table at the regular stride; slots beyond the table are
left out (cleared to the invalid sentinel in the binary image)
(spec section 4.4 "Sparse index table"; `index` field,
uv390_callsigndb.hh:80). -/
def buildIndex (tbl : List callsign_t) : List entry_t :=
  (List.range IDX).filterMap fun j =>
    if h : j * strideOf tbl.length < tbl.length then
      some ⟨j * strideOf tbl.length, (tbl.get ⟨j * strideOf tbl.length, h⟩).dmrid⟩
    else none

/-- Modelled from the spec: the index step of a reader's lookup — the
record-table offset stored in the tightest slot whose sampled ID is ≤ the
target, or offset 0 when no slot qualifies (spec section 4.4 "Lookup";
the spec's binary search is modelled by its defining result, the index is
ascending in both fields). -/
def findSlot (idx : List entry_t) (x : Nat) : Nat :=
  idx.foldl (fun acc e => if e.sampledId ≤ x then e.index else acc) 0

/-- Forward scan of the record table from position `pos`: stops with
failure at the first id above the target, with success when the target id
is reached (spec section 4.4 "Lookup": "until the target ID is found or
exceeded"). -/
def scanAux : List callsign_t → Nat → Nat → Option Nat
  | [], _, _ => none
  | r :: rs, pos, x =>
      if x < r.dmrid then none
      else if r.dmrid = x then some pos
      else scanAux rs (pos + 1) x

/-- Modelled from the spec: the documented two-level lookup — find the
start offset through the sparse index, then scan the record table forward
(spec section 4.4 "Lookup"). -/
def lookup (tbl : List callsign_t) (x : Nat) : Option Nat :=
  scanAux (tbl.drop (findSlot (buildIndex tbl) x)) (findSlot (buildIndex tbl) x) x

/-- The encoded image, `callsign_db_t` (uv390_callsigndb.hh:29,79-81):
record count `n` (24-bit big-endian in the binary layout), the index table
and the record table. -/
structure callsign_db_t where
  n : Nat
  index : List entry_t
  db : List callsign_t
  deriving DecidableEq

/-- `callsign_db_t::clear` (declared uv390_callsigndb.hh:87): the empty
image, every entry at the invalid sentinel. -/
def callsign_db_t.clearDB : callsign_db_t := ⟨0, [], []⟩

/-- Modelled from the spec: `callsign_db_t::fromUserDB` (declared
uv390_callsigndb.hh:91, body not among the provided sources): fill the
record table with the selected, sorted records, set the count, build the
sparse index (spec section 4.4). -/
def callsign_db_t.fromUserDB (users : List User) : callsign_db_t :=
  let tbl := encodeTable users
  ⟨tbl.length, buildIndex tbl, tbl⟩

/-- Modelled from the spec: `UV390CallsignDB::encode` (declared
uv390_callsigndb.hh:99, body not among the provided sources).  The
declaration fixes the return type to `bool`; per the spec's encode
contract the call fails exactly when zero records survive selection,
otherwise the image is filled (truncated to the capacity when the source
is larger) and the call reports success (spec section 4.4 "Encode
contract"). -/
def UV390CallsignDB.encode (users : List User) : Bool × callsign_db_t :=
  if (encodeTable users).isEmpty then (false, callsign_db_t.clearDB)
  else (true, callsign_db_t.fromUserDB users)

/-- A record set is valid-unique when every id is a non-zero 24-bit value
and no id repeats (the claims' "valid unique-ID records"). -/
def ValidUnique (users : List User) : Prop :=
  (∀ u ∈ users, 0 < u.id ∧ u.id < 16777216) ∧ (users.map User.id).Nodup

/-- A string ends in a decimal point followed by exactly four decimal
digits, and contains no other decimal point: the shape of a fixed-precision
frequency field. -/
def HasFixed4Frac (s : String) : Prop :=
  ∃ pre frac : List Char, s.data = pre ++ '.' :: frac
    ∧ frac.length = 4 ∧ (∀ c ∈ frac, c.isDigit = true) ∧ ∀ c ∈ pre, c ≠ '.'

/-- An empty configuration graph. -/
def minimalCfg : Config := ⟨0, "", "", "", 1, false, [], [], [], [], [], []⟩

/-- A channel base whose TX frequency lies below its RX frequency. -/
def bW : ChannelBase := ⟨1, "CH", 2, 1, Power.HighPower, 0, false, none⟩

/-- A digital channel for the setter scenarios. -/
def dc0 : DigitalChannel :=
  ⟨⟨11, "D1", 2, 2, Power.HighPower, 0, false, none⟩, DigitalAdmit.AdmitColorCode, 1,
    TimeSlot.TimeSlot1, none, none, none, none, none⟩

/-- An analog channel for the setter scenarios. -/
def ac0 : AnalogChannel :=
  ⟨⟨21, "A1", 2, 2, Power.HighPower, 0, false, none⟩, AnalogAdmit.AdmitTone, 3, 0, 0,
    Bandwidth.BWWide, none⟩

/-- A channel value for the common setter scenarios. -/
def ch0 : Channel := Channel.analog ac0

/-- A configuration holding three digital channels, identities 11, 12, 13. -/
def cfgZ : Config :=
  ⟨1, "R", "", "", 1, false,
    [Channel.digital dc0,
     Channel.digital { dc0 with base := { dc0.base with eid := 12, name := "D2" } },
     Channel.digital { dc0 with base := { dc0.base with eid := 13, name := "D3" } }],
    [], [], [], [], []⟩

/-- A zone with three channels on side A and none on side B. -/
def zW : Zone := ⟨"Z", [11, 12, 13], []⟩

/-- A scan list whose designated transmit channel is the "last" case. -/
def slA : ScanList := ⟨1, "S", none, none, TxRef.last, []⟩

/-- The same scan list with a concrete designated transmit channel. -/
def slB : ScanList := ⟨1, "S", none, none, TxRef.channel 7, []⟩

/-- Five users with ids 5, 1, 3, 2, 4 (spec section 8, ordering scenario). -/
def demo5 : List User := [⟨5, "", ""⟩, ⟨1, "", ""⟩, ⟨3, "", ""⟩, ⟨2, "", ""⟩, ⟨4, "", ""⟩]

/-- Three users for the lookup scenario. -/
def demoLkup : List User := [⟨10, "", ""⟩, ⟨20, "", ""⟩, ⟨30, "", ""⟩]

/-- CAP + 1 valid unique-ID users, ids 1 .. 122198. -/
def bigUsers : List User := (List.range (CAP + 1)).map fun i => ⟨i + 1, "", ""⟩

/-- CAP + 5 valid unique-ID users, ids 1 .. 122202. -/
def big2 : List User := (List.range (CAP + 5)).map fun i => ⟨i + 1, "", ""⟩

/-- Two valid users, well under capacity. -/
def small2 : List User := [⟨1, "", ""⟩, ⟨2, "", ""⟩]

/-- A single valid user. -/
def oneUser : List User := [⟨1, "", ""⟩]

/-- A source set in which no record survives selection (ID 0 is invalid). -/
def noValid : List User := [⟨0, "", ""⟩]

/-- String append acts as list append on the character data. -/
theorem sdata_append (a b : String) : (a ++ b).data = a.data ++ b.data := rfl

/-- Every decimal digit character produced by `Nat.digitChar` below ten is a
digit. -/
theorem digitChar_digit : ∀ m : Nat, m < 10 → (Nat.digitChar m).isDigit = true := by
  decide

/-- The base-10 digit accumulator only produces digit characters. -/
theorem toDigitsCore_digits (fuel : Nat) :
    ∀ (n : Nat) (acc : List Char), (∀ c ∈ acc, c.isDigit = true) →
      ∀ c ∈ Nat.toDigitsCore 10 fuel n acc, c.isDigit = true := by
  induction fuel with
  | zero =>
    intro n acc hacc c hc
    simp only [Nat.toDigitsCore] at hc
    exact hacc c hc
  | succ fuel ih =>
    intro n acc hacc c hc
    simp only [Nat.toDigitsCore] at hc
    by_cases h : n / 10 = 0
    · rw [if_pos h] at hc
      rcases List.mem_cons.mp hc with rfl | hc
      · exact digitChar_digit _ (Nat.mod_lt _ (by omega))
      · exact hacc c hc
    · rw [if_neg h] at hc
      refine ih _ _ ?_ c hc
      intro d hd
      rcases List.mem_cons.mp hd with rfl | hd
      · exact digitChar_digit _ (Nat.mod_lt _ (by omega))
      · exact hacc d hd

/-- Decimal renderings of naturals consist of digit characters only. -/
theorem repr_digits (n : Nat) : ∀ c ∈ (Nat.repr n).data, c.isDigit = true := by
  intro c hc
  have hdata : (Nat.repr n).data = Nat.toDigitsCore 10 (n + 1) n [] := rfl
  rw [hdata] at hc
  exact toDigitsCore_digits _ _ _ (by intro d hd; exact absurd hd (List.not_mem_nil d)) c hc

/-- The fixed-point renderer always produces a single decimal point followed
by exactly four digits. -/
theorem formatFixed4_fixed4 (v : Int) : HasFixed4Frac (formatFixed4 v) := by
  refine ⟨((if v < 0 then "-" else "") ++ Nat.repr (v.natAbs / 10000)).data,
          (pad4 (v.natAbs % 10000)).data, ?_, ?_, ?_, ?_⟩
  · show (formatFixed4 v).data = _
    simp only [formatFixed4]
    rw [sdata_append, sdata_append, show (".").data = ['.'] from rfl,
        List.append_assoc, List.singleton_append]
  · simp [pad4]
  · intro c hc
    simp only [pad4] at hc
    simp only [show (String.mk [Nat.digitChar (v.natAbs % 10000 / 1000 % 10),
        Nat.digitChar (v.natAbs % 10000 / 100 % 10), Nat.digitChar (v.natAbs % 10000 / 10 % 10),
        Nat.digitChar (v.natAbs % 10000 % 10)]).data = _ from rfl, List.mem_cons,
      List.not_mem_nil, or_false] at hc
    rcases hc with rfl | rfl | rfl | rfl
    · exact digitChar_digit _ (Nat.mod_lt _ (by omega))
    · exact digitChar_digit _ (Nat.mod_lt _ (by omega))
    · exact digitChar_digit _ (Nat.mod_lt _ (by omega))
    · exact digitChar_digit _ (Nat.mod_lt _ (by omega))
  · intro c hc
    rw [sdata_append] at hc
    rcases List.mem_append.mp hc with h | h
    · by_cases hv : v < 0
      · rw [if_pos hv] at h
        have : c = '-' := by simpa [show ("-").data = ['-'] from rfl] using h
        subst this
        decide
      · rw [if_neg hv] at h
        exact absurd h (by simp [show ("").data = ([] : List Char) from rfl])
    · have hd := repr_digits _ c h
      intro hceq
      rw [hceq] at hd
      exact absurd hd (by decide)

/-- C1 (counterexample): the claim "running CSVWriter::write twice on the
same unchanged graph produces byte-identical output streams" is false on
the code: the leading comment block embeds the ambient clock
(csvwriter.cc:17), so two runs of the same graph that observe different
clock strings produce different bytes. -/
theorem write_not_time_invariant :
    (CSVWriter.write minimalCfg "T1").1 ≠ (CSVWriter.write minimalCfg "T2").1 := by
  decide

/-- C1 (amended): CSVWriter::write does not mutate the graph, and its
output is a pure projection up to the generated-timestamp header: two runs
over the same unchanged graph share one body, each prefixed by its own
clock header — in particular two runs observing the same clock string are
byte-identical. -/
theorem write_pure_projection_modulo_timestamp :
    ∀ (cfg : Config) (now1 now2 : String),
      (CSVWriter.write cfg now1).2 = cfg
      ∧ ∃ body : String,
          (CSVWriter.write cfg now1).1 = mkFileHeader now1 ++ body
          ∧ (CSVWriter.write cfg now2).1 = mkFileHeader now2 ++ body :=
  fun cfg _ _ => ⟨rfl, writeBody cfg, rfl, rfl⟩

/-- C6: in every channel row the frequency fields are fixed-precision
decimals with exactly four fractional digits, and the Transmit column
prints the signed offset (transmit minus receive) exactly when the TX
frequency is below the RX frequency, the absolute TX frequency
otherwise. -/
theorem freq_fields_fixed4_and_offset :
    (∀ b : ChannelBase,
        (b.txFreq < b.rxFreq → txFreqField b = formatFrequency (b.txFreq - b.rxFreq))
      ∧ (¬b.txFreq < b.rxFreq → txFreqField b = formatFrequency b.txFreq))
  ∧ ∀ q : ℚ, HasFixed4Frac (formatFrequency q) := by
  constructor
  · intro b
    constructor
    · intro h
      simp [txFreqField, h]
    · intro h
      simp [txFreqField, h]
  · intro q
    exact formatFixed4_fixed4 _

/-- C6 (witness): a channel with TX frequency 1 MHz below RX frequency
2 MHz prints the signed offset, and its RX field has the fixed-4 shape. -/
theorem freq_fields_fixed4_and_offset_witness :
    txFreqField bW = formatFrequency (bW.txFreq - bW.rxFreq)
  ∧ HasFixed4Frac (formatFrequency bW.rxFreq) :=
  ⟨(freq_fields_fixed4_and_offset.1 bW).1 (by decide),
   freq_fields_fixed4_and_offset.2 bW.rxFreq⟩

/-- C7: each zone emits one text row per non-empty side, side A first; a
zone with a populated side A and an empty side B emits exactly the single
side-A row with its comma-separated 1-based channel indices. -/
theorem zone_rows_per_nonempty_side :
    ∀ (cfg : Config) (i : Nat) (z : Zone),
      ((zoneRows cfg i z).length
          = (if z.A.length = 0 then 0 else 1) + (if z.B.length = 0 then 0 else 1))
    ∧ (z.A ≠ [] → z.B = [] → zoneRows cfg i z = [zoneRowSide cfg i z.name "A" z.A]) := by
  intro cfg i z
  constructor
  · by_cases hA : z.A.length = 0 <;> by_cases hB : z.B.length = 0 <;>
      simp [zoneRows, hA, hB]
  · intro hA hB
    have hA' : z.A.length ≠ 0 := by
      simpa [List.length_eq_zero] using hA
    simp [zoneRows, hA', hB]

/-- C7 (witness): the zone with three side-A channels and no side-B channel
exports exactly one row, for side A. -/
theorem zone_rows_witness :
    zoneRows cfgZ 0 zW = [zoneRowSide cfgZ 0 "Z" "A" [11, 12, 13]] :=
  (zone_rows_per_nonempty_side cfgZ 0 zW).2 (by decide) rfl

/-- C8 (counterexample): the claim that the designated-transmit-channel
column resolves the scan list's transmit channel reference (distinct
references giving distinct column values) is false on the code: the writer
prints the literal "Sel" for every scan list (csvwriter.cc:186), so the two
scan lists `slA` and `slB`, which differ exactly in that reference, render
identical columns and identical rows. -/
theorem scanlist_txch_not_resolved :
    slA.txChannel ≠ slB.txChannel
  ∧ ScanList.txChColumn slA = ScanList.txChColumn slB
  ∧ scanListRow minimalCfg 0 slA = scanListRow minimalCfg 0 slB :=
  ⟨by decide, rfl, rfl⟩

/-- C8 (amended): the designated-transmit-channel column of every scan list
row contains the sentinel word "Sel", independently of the scan list's
designated transmit channel reference; the whole row is unchanged under any
change of that reference. -/
theorem scanlist_txch_constant_sel :
    (∀ sl : ScanList, sl.txChColumn = "Sel")
  ∧ ∀ (cfg : Config) (i : Nat) (sl : ScanList) (r : TxRef),
      scanListRow cfg i { sl with txChannel := r } = scanListRow cfg i sl :=
  ⟨fun _ => rfl, fun _ _ _ _ => rfl⟩

/-- C9: mutating setters validate atomically — an out-of-range value
(color code above 15, squelch above 10, empty name, frequency ≤ 0) is
rejected with `false` and the channel unchanged, an in-range value is
stored with `true` and only the addressed field changes. -/
theorem channel_setters_validate :
    ∀ (dc : DigitalChannel) (ac : AnalogChannel) (ch : Channel) (nm : String) (f : ℚ)
      (cc sq : Nat),
      (15 < cc → dc.setColorCode cc = (false, dc))
    ∧ (cc ≤ 15 → dc.setColorCode cc = (true, { dc with colorCode := cc }))
    ∧ (10 < sq → ac.setSquelch sq = (false, ac))
    ∧ (sq ≤ 10 → ac.setSquelch sq = (true, { ac with squelch := sq }))
    ∧ (ch.setName "" = (false, ch))
    ∧ (nm ≠ "" → ch.setName nm = (true, ch.withName nm))
    ∧ (f ≤ 0 → ch.setRXFrequency f = (false, ch))
    ∧ (0 < f → ch.setRXFrequency f = (true, ch.withRXFrequency f)) := by
  intro dc ac ch nm f cc sq
  refine ⟨?_, ?_, ?_, ?_, ?_, ?_, ?_, ?_⟩
  · intro h
    simp only [DigitalChannel.setColorCode]
    rw [if_neg (by omega)]
  · intro h
    simp only [DigitalChannel.setColorCode]
    rw [if_pos h]
  · intro h
    simp only [AnalogChannel.setSquelch]
    rw [if_neg (by omega)]
  · intro h
    simp only [AnalogChannel.setSquelch]
    rw [if_pos h]
  · simp [Channel.setName]
  · intro h
    simp [Channel.setName, h]
  · intro h
    simp only [Channel.setRXFrequency]
    rw [if_pos h]
  · intro h
    simp only [Channel.setRXFrequency]
    rw [if_neg (by exact not_le.mpr h)]

/-- C9 (witness): concrete channels — color code 16 and squelch 11 are
rejected without a state change, color code 7, squelch 4, a non-empty name
and a positive frequency are stored. -/
theorem channel_setters_validate_witness :
    dc0.setColorCode 16 = (false, dc0)
  ∧ dc0.setColorCode 7 = (true, { dc0 with colorCode := 7 })
  ∧ ac0.setSquelch 11 = (false, ac0)
  ∧ ac0.setSquelch 4 = (true, { ac0 with squelch := 4 })
  ∧ ch0.setName "" = (false, ch0)
  ∧ ch0.setName "B" = (true, ch0.withName "B")
  ∧ ch0.setRXFrequency 0 = (false, ch0)
  ∧ ch0.setRXFrequency 1 = (true, ch0.withRXFrequency 1) :=
  ⟨(channel_setters_validate dc0 ac0 ch0 "B" 0 16 11).1 (by decide),
   (channel_setters_validate dc0 ac0 ch0 "B" 1 7 4).2.1 (by decide),
   (channel_setters_validate dc0 ac0 ch0 "B" 0 16 11).2.2.1 (by decide),
   (channel_setters_validate dc0 ac0 ch0 "B" 1 7 4).2.2.2.1 (by decide),
   (channel_setters_validate dc0 ac0 ch0 "B" 0 16 11).2.2.2.2.1,
   (channel_setters_validate dc0 ac0 ch0 "B" 0 16 11).2.2.2.2.2.1 (by decide),
   (channel_setters_validate dc0 ac0 ch0 "B" 0 16 11).2.2.2.2.2.2.1 (by decide),
   (channel_setters_validate dc0 ac0 ch0 "B" 1 7 4).2.2.2.2.2.2.2 (by decide)⟩

/-- C10: the text export collapses the five-value power scale to two
words — the Power column (rendered by `powerCol`, used in both the digital
and the analog channel rows) prints "High" exactly for `HighPower` and
"Low" for each of the other four values. -/
theorem power_column_collapse :
    powerCol Power.HighPower = "High"
  ∧ powerCol Power.MaxPower = "Low"
  ∧ powerCol Power.MidPower = "Low"
  ∧ powerCol Power.LowPower = "Low"
  ∧ powerCol Power.MinPower = "Low" := by
  decide

/-- Membership in an insertion result comes from the inserted record or the
original list. -/
theorem mem_insertU (u v : User) : ∀ l : List User, v ∈ insertU u l → v = u ∨ v ∈ l := by
  intro l
  induction l with
  | nil =>
    intro h
    simpa [insertU] using h
  | cons w ws ih =>
    intro h
    simp only [insertU] at h
    by_cases h1 : u.id < w.id
    · rw [if_pos h1] at h
      rcases List.mem_cons.mp h with rfl | h2
      · exact Or.inl rfl
      · exact Or.inr h2
    · rw [if_neg h1] at h
      by_cases h2 : u.id = w.id
      · rw [if_pos h2] at h
        exact Or.inr h
      · rw [if_neg h2] at h
        rcases List.mem_cons.mp h with rfl | h3
        · exact Or.inr (List.mem_cons_self _ _)
        · rcases ih h3 with h4 | h4
          · exact Or.inl h4
          · exact Or.inr (List.mem_cons_of_mem _ h4)

/-- Insertion preserves strict ascending order of the ids. -/
theorem insertU_pairwise (u : User) :
    ∀ l : List User, l.Pairwise (fun a b => a.id < b.id) →
      (insertU u l).Pairwise (fun a b => a.id < b.id) := by
  intro l
  induction l with
  | nil =>
    intro _
    simp [insertU]
  | cons w ws ih =>
    intro hp
    rcases List.pairwise_cons.mp hp with ⟨hw, hws⟩
    simp only [insertU]
    by_cases h1 : u.id < w.id
    · rw [if_pos h1]
      refine List.pairwise_cons.mpr ⟨?_, hp⟩
      intro b hb
      rcases List.mem_cons.mp hb with rfl | hb2
      · exact h1
      · exact lt_trans h1 (hw b hb2)
    · rw [if_neg h1]
      by_cases h2 : u.id = w.id
      · rw [if_pos h2]
        exact hp
      · rw [if_neg h2]
        refine List.pairwise_cons.mpr ⟨?_, ih hws⟩
        intro b hb
        rcases mem_insertU u b ws hb with rfl | hb2
        · omega
        · exact hw b hb2

/-- The selection stage's sort produces a strictly ascending id order. -/
theorem sortUnique_pairwise :
    ∀ l : List User, (sortUnique l).Pairwise (fun a b => a.id < b.id) := by
  intro l
  induction l with
  | nil => simp [sortUnique]
  | cons u us ih =>
    simp only [sortUnique]
    exact insertU_pairwise u _ ih

/-- Sorted records all come from the input. -/
theorem mem_sortUnique (v : User) : ∀ l : List User, v ∈ sortUnique l → v ∈ l := by
  intro l
  induction l with
  | nil =>
    intro h
    simp [sortUnique] at h
  | cons u us ih =>
    intro h
    simp only [sortUnique] at h
    rcases mem_insertU u v _ h with rfl | h2
    · exact List.mem_cons_self _ _
    · exact List.mem_cons_of_mem _ (ih h2)

/-- Insertion never yields the empty list. -/
theorem insertU_ne_nil (u : User) (l : List User) : insertU u l ≠ [] := by
  cases l with
  | nil => simp [insertU]
  | cons w ws =>
    simp only [insertU]
    by_cases h1 : u.id < w.id
    · rw [if_pos h1]
      simp
    · rw [if_neg h1]
      by_cases h2 : u.id = w.id
      · rw [if_pos h2]
        simp
      · rw [if_neg h2]
        simp

/-- The sort is empty exactly for an empty input. -/
theorem sortUnique_nil_iff (l : List User) : sortUnique l = [] ↔ l = [] := by
  cases l with
  | nil => simp [sortUnique]
  | cons u us =>
    simp only [sortUnique]
    exact ⟨fun h => absurd h (insertU_ne_nil _ _), fun h => absurd h (List.cons_ne_nil _ _)⟩

/-- Inserting a fresh id grows the list by one. -/
theorem insertU_length (u : User) :
    ∀ l : List User, u.id ∉ l.map User.id → (insertU u l).length = l.length + 1 := by
  intro l
  induction l with
  | nil =>
    intro _
    simp [insertU]
  | cons w ws ih =>
    intro hu
    simp only [List.map_cons, List.mem_cons] at hu
    push_neg at hu
    obtain ⟨h1, h2⟩ := hu
    simp only [insertU]
    by_cases hlt : u.id < w.id
    · rw [if_pos hlt]
      simp
    · rw [if_neg hlt, if_neg h1]
      simp [ih h2]

/-- Every id of the sorted list is an id of the input. -/
theorem id_mem_sortUnique (x : Nat) (l : List User) (h : x ∈ (sortUnique l).map User.id) :
    x ∈ l.map User.id := by
  rcases List.mem_map.mp h with ⟨v, hv, rfl⟩
  exact List.mem_map.mpr ⟨v, mem_sortUnique v l hv, rfl⟩

/-- On an input with pairwise-distinct ids the sort keeps every record. -/
theorem sortUnique_length :
    ∀ l : List User, (l.map User.id).Nodup → (sortUnique l).length = l.length := by
  intro l
  induction l with
  | nil =>
    intro _
    simp [sortUnique]
  | cons u us ih =>
    intro h
    simp only [List.map_cons, List.nodup_cons] at h
    obtain ⟨hu, hus⟩ := h
    have hfresh : u.id ∉ (sortUnique us).map User.id := fun hc => hu (id_mem_sortUnique _ us hc)
    simp only [sortUnique]
    rw [insertU_length u _ hfresh, ih hus]
    simp

/-- The selection predicate in propositional form. -/
theorem validUser_iff (u : User) : validUser u = true ↔ 0 < u.id ∧ u.id < 16777216 := by
  simp [validUser]

/-- Packing the 24-bit id field is lossless on validated ids. -/
theorem fromUser_dmrid (u : User) (h : u.id < 16777216) :
    (callsign_t.fromUser u).dmrid = u.id := by
  simp [callsign_t.fromUser, Nat.mod_eq_of_lt h]

/-- The encoded record table is strictly ascending in the DMR id. -/
theorem encodeTable_pairwise (users : List User) :
    (encodeTable users).Pairwise (fun a b => a.dmrid < b.dmrid) := by
  have hvalid : ∀ u ∈ sortUnique (users.filter validUser), u.id < 16777216 := by
    intro u hu
    have hmem : u ∈ users.filter validUser := mem_sortUnique u _ hu
    exact ((validUser_iff u).mp (List.of_mem_filter hmem)).2
  have hmap : ((sortUnique (users.filter validUser)).map callsign_t.fromUser).Pairwise
      (fun a b => a.dmrid < b.dmrid) := by
    rw [List.pairwise_map]
    refine List.Pairwise.imp_of_mem ?_ (sortUnique_pairwise _)
    intro a b ha hb hab
    rw [fromUser_dmrid a (hvalid a ha), fromUser_dmrid b (hvalid b hb)]
    exact hab
  exact List.Pairwise.sublist (List.take_sublist _ _) hmap

/-- Strict ascent of the table in get form. -/
theorem encodeTable_get_lt (tbl : List callsign_t)
    (hp : tbl.Pairwise (fun a b => a.dmrid < b.dmrid))
    (i j : Nat) (hi : i < tbl.length) (hj : j < tbl.length) (hij : i < j) :
    (tbl.get ⟨i, hi⟩).dmrid < (tbl.get ⟨j, hj⟩).dmrid :=
  List.pairwise_iff_get.mp hp ⟨i, hi⟩ ⟨j, hj⟩ (Fin.mk_lt_mk.mpr hij)

/-- Dropping at a valid position exposes the element there. -/
theorem drop_get_cons {α : Type} (l : List α) (n : Nat) (h : n < l.length) :
    l.drop n = l.get ⟨n, h⟩ :: l.drop (n + 1) := by
  induction l generalizing n with
  | nil => simp at h
  | cons a t ih =>
    cases n with
    | zero => simp
    | succ m =>
      have hm : m < t.length := by simpa using h
      simp only [List.drop_succ_cons, List.get_cons_succ]
      exact ih m hm

/-- The forward scan started at or before the target position of a sorted
table stops exactly at the target. -/
theorem scanAux_finds (tbl : List callsign_t)
    (hp : tbl.Pairwise (fun a b => a.dmrid < b.dmrid))
    (p : Nat) (hpl : p < tbl.length) :
    ∀ n o : Nat, o + n = p →
      scanAux (tbl.drop o) o ((tbl.get ⟨p, hpl⟩).dmrid) = some p := by
  intro n
  induction n with
  | zero =>
    intro o ho
    have hop : o = p := by omega
    subst hop
    rw [drop_get_cons tbl o hpl]
    simp [scanAux]
  | succ n ih =>
    intro o ho
    have hol : o < tbl.length := by omega
    have hlt : (tbl.get ⟨o, hol⟩).dmrid < (tbl.get ⟨p, hpl⟩).dmrid :=
      encodeTable_get_lt tbl hp o p hol hpl (by omega)
    rw [drop_get_cons tbl o hol]
    simp only [scanAux]
    rw [if_neg (by omega), if_neg (by omega)]
    exact ih (o + 1) (by omega)

/-- The fold behind the index search either keeps its start value or
returns the stored offset of some qualifying slot. -/
theorem findSlot_cases (x : Nat) :
    ∀ (l : List entry_t) (a : Nat),
      l.foldl (fun acc e => if e.sampledId ≤ x then e.index else acc) a = a
      ∨ ∃ e ∈ l, e.sampledId ≤ x
          ∧ l.foldl (fun acc e => if e.sampledId ≤ x then e.index else acc) a = e.index := by
  intro l
  induction l with
  | nil =>
    intro a
    exact Or.inl rfl
  | cons e t ih =>
    intro a
    simp only [List.foldl_cons]
    by_cases hc : e.sampledId ≤ x
    · rw [if_pos hc]
      rcases ih e.index with h | ⟨e2, he2, hle2, heq2⟩
      · exact Or.inr ⟨e, List.mem_cons_self _ _, hc, h⟩
      · exact Or.inr ⟨e2, List.mem_cons_of_mem _ he2, hle2, heq2⟩
    · rw [if_neg hc]
      rcases ih a with h | ⟨e2, he2, hle2, heq2⟩
      · exact Or.inl h
      · exact Or.inr ⟨e2, List.mem_cons_of_mem _ he2, hle2, heq2⟩

/-- Every built index slot stores an in-range offset together with the id
sampled there. -/
theorem buildIndex_mem (tbl : List callsign_t) (e : entry_t) (he : e ∈ buildIndex tbl) :
    ∃ h : e.index < tbl.length, (tbl.get ⟨e.index, h⟩).dmrid = e.sampledId := by
  rcases List.mem_filterMap.mp he with ⟨j, _hj, hfe⟩
  by_cases h : j * strideOf tbl.length < tbl.length
  · rw [dif_pos h] at hfe
    obtain rfl := Option.some.inj hfe
    exact ⟨h, rfl⟩
  · rw [dif_neg h] at hfe
    cases hfe

/-- Two-level lookup correctness over any strictly ascending record
table: the index step lands at or before the target, the scan finds it. -/
theorem lookup_sorted_correct (tbl : List callsign_t)
    (hp : tbl.Pairwise (fun a b => a.dmrid < b.dmrid))
    (p : Nat) (hpl : p < tbl.length) :
    lookup tbl ((tbl.get ⟨p, hpl⟩).dmrid) = some p := by
  have hstart : findSlot (buildIndex tbl) ((tbl.get ⟨p, hpl⟩).dmrid) ≤ p := by
    unfold findSlot
    rcases findSlot_cases ((tbl.get ⟨p, hpl⟩).dmrid) (buildIndex tbl) 0 with h | ⟨e, he, hle, heq⟩
    · rw [h]
      omega
    · rw [heq]
      obtain ⟨hei, hid⟩ := buildIndex_mem tbl e he
      by_contra hgt
      push_neg at hgt
      have hplt := encodeTable_get_lt tbl hp p e.index hpl hei (by omega)
      omega
  unfold lookup
  exact scanAux_finds tbl hp p hpl
    (p - findSlot (buildIndex tbl) ((tbl.get ⟨p, hpl⟩).dmrid))
    (findSlot (buildIndex tbl) ((tbl.get ⟨p, hpl⟩).dmrid)) (by omega)

/-- The encode fails exactly on a table that ends up empty. -/
theorem encodeTable_nil_iff (users : List User) :
    encodeTable users = [] ↔ ∀ u ∈ users, ¬(0 < u.id ∧ u.id < 16777216) := by
  unfold encodeTable
  constructor
  · intro h u hu
    intro hval
    have hmemf : u ∈ users.filter validUser :=
      List.mem_filter.mpr ⟨hu, (validUser_iff u).mpr hval⟩
    have hne : users.filter validUser ≠ [] := by
      intro hc
      rw [hc] at hmemf
      exact absurd hmemf (List.not_mem_nil u)
    have hne2 : sortUnique (users.filter validUser) ≠ [] := by
      intro hc
      exact hne ((sortUnique_nil_iff _).mp hc)
    rcases hlist : sortUnique (users.filter validUser) with _ | ⟨a, t⟩
    · exact hne2 hlist
    · rw [hlist] at h
      simp only [List.map_cons] at h
      rw [show CAP = 122196 + 1 from rfl, List.take_succ_cons] at h
      exact absurd h (List.cons_ne_nil _ _)
  · intro h
    have hfe : users.filter validUser = [] := by
      rw [List.filter_eq_nil_iff]
      intro u hu
      intro hv
      exact h u hu ((validUser_iff u).mp hv)
    rw [hfe]
    simp [sortUnique]

/-- The returned flag of the encode as a function of the table. -/
theorem encode_fst (users : List User) :
    (UV390CallsignDB.encode users).1 = !(encodeTable users).isEmpty := by
  unfold UV390CallsignDB.encode
  by_cases h : (encodeTable users).isEmpty = true
  · rw [if_pos h, h]
    rfl
  · rw [if_neg h]
    rw [Bool.not_eq_true] at h
    rw [h]
    rfl

/-- On a non-empty table the encode succeeds and stores the table. -/
theorem encode_db_of_ne (users : List User) (h : encodeTable users ≠ []) :
    (UV390CallsignDB.encode users).2.db = encodeTable users
    ∧ (UV390CallsignDB.encode users).1 = true := by
  unfold UV390CallsignDB.encode
  rw [if_neg (by simpa [List.isEmpty_iff] using h)]
  exact ⟨rfl, rfl⟩

/-- Length of the encoded table on a valid-unique input: the source size
cut to the capacity. -/
theorem encodeTable_length (users : List User) (h : ValidUnique users) :
    (encodeTable users).length = min CAP users.length := by
  obtain ⟨hval, hnodup⟩ := h
  have hfilter : users.filter validUser = users := by
    rw [List.filter_eq_self]
    intro u hu
    exact (validUser_iff u).mpr (hval u hu)
  unfold encodeTable
  rw [hfilter, List.length_take, List.length_map, sortUnique_length users hnodup]

/-- Under the capacity every valid-unique record is encoded. -/
theorem encode_count_le (users : List User) (h : ValidUnique users)
    (hle : users.length ≤ CAP) :
    (UV390CallsignDB.encode users).2.db.length = users.length := by
  by_cases hnil : users.length = 0
  · have husers : users = [] := List.length_eq_zero.mp hnil
    subst husers
    rfl
  · have hlen : (encodeTable users).length = users.length := by
      rw [encodeTable_length users h]
      omega
    have hne : encodeTable users ≠ [] := by
      intro hc
      rw [hc] at hlen
      simp only [List.length_nil] at hlen
      omega
    rw [(encode_db_of_ne users hne).1, hlen]

/-- Above the capacity the encode keeps exactly CAP records and still
reports plain success. -/
theorem encode_count_over (users : List User) (k : Nat) (hk : 0 < k) (h : ValidUnique users)
    (hlen : users.length = CAP + k) :
    (UV390CallsignDB.encode users).2.db.length = CAP
    ∧ (UV390CallsignDB.encode users).1 = true := by
  have hl : (encodeTable users).length = CAP := by
    rw [encodeTable_length users h, hlen]
    omega
  have hne : encodeTable users ≠ [] := by
    intro hc
    rw [hc] at hl
    simp only [List.length_nil] at hl
    exact absurd hl.symm (by decide)
  obtain ⟨hdb, hflag⟩ := encode_db_of_ne users hne
  rw [hdb]
  exact ⟨hl, hflag⟩

/-- A run of fresh ids 1..n is a valid-unique record set once n stays in
the 24-bit domain. -/
theorem validUnique_range_map (n : Nat) (hn : n ≤ 16777215) :
    ValidUnique ((List.range n).map fun i => ⟨i + 1, "", ""⟩) := by
  constructor
  · intro u hu
    rcases List.mem_map.mp hu with ⟨i, hi, rfl⟩
    have hin := List.mem_range.mp hi
    constructor
    · show 0 < i + 1
      omega
    · show i + 1 < 16777216
      omega
  · rw [List.map_map]
    refine List.Nodup.map ?_ (List.nodup_range n)
    intro a b hab
    have hab2 : a + 1 = b + 1 := hab
    omega

/-- The oversized demonstration set has CAP + 1 records. -/
theorem bigUsers_length : bigUsers.length = CAP + 1 := by
  simp [bigUsers]

/-- The oversized demonstration set is valid-unique. -/
theorem validUnique_bigUsers : ValidUnique bigUsers :=
  validUnique_range_map (CAP + 1) (by decide)

/-- C2 (counterexample): the claim that the caller can tell success,
truncated and failure apart from the returned value is false on the code:
`UV390CallsignDB::encode` returns a plain `bool` (uv390_callsigndb.hh:99),
and the truncated encode of `big2` (CAP + 5 records, image cut to CAP)
returns the very same value as the plain success on `small2` (2 records,
all encoded). -/
theorem encode_outcomes_indistinct :
    CAP < big2.length
  ∧ (UV390CallsignDB.encode big2).2.db.length = CAP
  ∧ (UV390CallsignDB.encode small2).2.db.length = small2.length
  ∧ (UV390CallsignDB.encode big2).1 = (UV390CallsignDB.encode small2).1 := by
  have hlen2 : big2.length = CAP + 5 := by
    simp [big2]
  have hvu : ValidUnique big2 := validUnique_range_map (CAP + 5) (by decide)
  refine ⟨by omega, ?_, ?_, ?_⟩
  · exact (encode_count_over big2 5 (by omega) hvu hlen2).1
  · exact encode_count_le small2 ⟨by decide, by decide⟩ (by decide)
  · have h1 := (encode_count_over big2 5 (by omega) hvu hlen2).2
    have h2 : (UV390CallsignDB.encode small2).1 = true := rfl
    rw [h1, h2]

/-- C2 (amended): the encode distinguishes two outcomes through its `bool`
result — failure exactly when no record survives selection (no valid
non-zero 24-bit id in the source), success otherwise; a source above
capacity is encoded truncated but reports the same plain success, not a
third distinguishable outcome. -/
theorem encode_two_outcomes :
    ∀ users : List User,
      ((UV390CallsignDB.encode users).1 = false
          ↔ ∀ u ∈ users, ¬(0 < u.id ∧ u.id < 16777216))
    ∧ ((UV390CallsignDB.encode users).1 = true
          ↔ ∃ u ∈ users, 0 < u.id ∧ u.id < 16777216) := by
  intro users
  have hfst := encode_fst users
  have hnil : (encodeTable users).isEmpty = true ↔ encodeTable users = [] := by
    cases encodeTable users <;> simp
  constructor
  · rw [hfst]
    simp only [Bool.not_eq_false']
    rw [hnil, encodeTable_nil_iff]
  · rw [hfst]
    simp only [Bool.not_eq_true']
    constructor
    · intro h
      by_contra hx
      have hx2 : ∀ u ∈ users, ¬(0 < u.id ∧ u.id < 16777216) := by
        intro u hu hval
        exact hx ⟨u, hu, hval⟩
      have hn : encodeTable users = [] := (encodeTable_nil_iff users).mpr hx2
      rw [hn] at h
      simp at h
    · rintro ⟨u, hu, hval⟩
      by_contra h
      have h2 : (encodeTable users).isEmpty = true := by
        cases hc : (encodeTable users).isEmpty
        · exact absurd hc h
        · rfl
      exact (encodeTable_nil_iff users).mp (hnil.mp h2) u hu hval

/-- C2 (witness): a source whose only record has the reserved id 0 makes
the encode fail. -/
theorem encode_two_outcomes_witness :
    (UV390CallsignDB.encode noValid).1 = false :=
  ((encode_two_outcomes noValid).1).mpr (by decide)

/-- C3: for every record set the encoded record table is sorted strictly
ascending by DMR id, and encoding the ids 5, 1, 3, 2, 4 yields the table
1, 2, 3, 4, 5. -/
theorem record_table_sorted :
    (∀ (users : List User) (i : Nat) (h : i + 1 < (encodeTable users).length),
        ((encodeTable users).get ⟨i, Nat.lt_of_succ_lt h⟩).dmrid
          < ((encodeTable users).get ⟨i + 1, h⟩).dmrid)
  ∧ (encodeTable demo5).map callsign_t.dmrid = [1, 2, 3, 4, 5] := by
  constructor
  · intro users i h
    exact encodeTable_get_lt _ (encodeTable_pairwise users) i (i + 1)
      (Nat.lt_of_succ_lt h) h (Nat.lt_succ_self i)
  · decide

/-- C3 (witness): adjacent ids of the demonstration table ascend. -/
theorem record_table_sorted_witness :
    ((encodeTable demo5).get ⟨0, by decide⟩).dmrid
      < ((encodeTable demo5).get ⟨1, by decide⟩).dmrid :=
  record_table_sorted.1 demo5 0 (by decide)

/-- C4: for every encoded image and every record present in the record
table, the documented two-level lookup — index search for the tightest
slot whose sampled id is at most the target, then forward scan of the
record table from that slot's stored offset until the target is found or
exceeded — locates exactly that record. -/
theorem sparse_index_lookup_correct :
    ∀ (users : List User) (p : Nat) (h : p < (encodeTable users).length),
      lookup (encodeTable users) (((encodeTable users).get ⟨p, h⟩).dmrid) = some p :=
  fun users p h => lookup_sorted_correct _ (encodeTable_pairwise users) p h

/-- C4 (witness): looking up the middle record of a three-record image
returns its position. -/
theorem sparse_index_lookup_witness :
    lookup (encodeTable demoLkup) (((encodeTable demoLkup).get ⟨1, by decide⟩).dmrid)
      = some 1 :=
  sparse_index_lookup_correct demoLkup 1 (by decide)

/-- C5 (counterexample): the claim that encoding CAP + k records reports
the truncation outcome is false on the code: encode returns a plain
`bool` (uv390_callsigndb.hh:99), and the truncated encode of `bigUsers`
(CAP + 1 records, image cut to CAP) returns the same value as the plain
success on the single-record source, so no truncation outcome is
reported. -/
theorem truncation_not_reported :
    CAP < bigUsers.length
  ∧ (UV390CallsignDB.encode bigUsers).2.db.length = CAP
  ∧ (UV390CallsignDB.encode oneUser).2.db.length = oneUser.length
  ∧ (UV390CallsignDB.encode bigUsers).1 = (UV390CallsignDB.encode oneUser).1 := by
  refine ⟨by rw [bigUsers_length]; omega, ?_, ?_, ?_⟩
  · exact (encode_count_over bigUsers 1 (by omega) validUnique_bigUsers bigUsers_length).1
  · exact encode_count_le oneUser ⟨by decide, by decide⟩ (by decide)
  · have h1 := (encode_count_over bigUsers 1 (by omega) validUnique_bigUsers bigUsers_length).2
    have h2 : (UV390CallsignDB.encode oneUser).1 = true := rfl
    rw [h1, h2]

/-- C5 (amended): with CAP = 122197, encoding CAP + k valid unique-ID
records (k > 0) yields an image of exactly CAP records and the encode
reports success (with no distinct truncation outcome, its result being a
plain bool); encoding n ≤ CAP such records yields a record count equal
to n. -/
theorem capacity_amended :
    (∀ (users : List User) (k : Nat), 0 < k → ValidUnique users →
        users.length = CAP + k →
        (UV390CallsignDB.encode users).2.db.length = CAP
        ∧ (UV390CallsignDB.encode users).1 = true)
  ∧ ∀ users : List User, ValidUnique users → users.length ≤ CAP →
      (UV390CallsignDB.encode users).2.db.length = users.length :=
  ⟨fun users k hk h hlen => encode_count_over users k hk h hlen,
   fun users h hle => encode_count_le users h hle⟩

/-- C5 (witness): CAP + 1 valid unique-ID records encode to exactly CAP
records with the success flag set. -/
theorem capacity_amended_witness :
    (UV390CallsignDB.encode bigUsers).2.db.length = CAP
  ∧ (UV390CallsignDB.encode bigUsers).1 = true :=
  capacity_amended.1 bigUsers 1 (by decide) validUnique_bigUsers bigUsers_length

end Qdmr
